import Mathlib

/-
Verification of the pam-nextcloud repository's authentication, caching,
password-change and group-synchronization logic, as a shallow embedding
in Lean 4.

The embedding follows the Python source files:
  pam_nextcloud.py        (NextcloudAuth: caching, authenticate, change_password)
  pam_nextcloud_groups.py (GroupSync: name mapping, per-user group sync)
  pam-nextcloud-sync.py   (bulk group reconciliation)
  test_nextcloud_passwd.py (the repository's own OCS-response interpretation)

External effects (HTTP responses, the filesystem-backed credential cache,
OS group state, PBKDF2) are made explicit: HTTP outcomes are inputs,
the cache is a map from username to entry, cache/remote effects are
recorded as traces, and the key-derivation function is a parameter.
-/

namespace PamNextcloud

/-! Hex encoding, modelling Python bytes.hex and bytes.fromhex as used by
_cache_password and _validate_cached_password (salt and hash round-trip). -/

/-- One hex digit character, lowercase, as produced by Python bytes.hex. -/
def hexDigitChar (n : Nat) : Char :=
  if n < 10 then Char.ofNat (48 + n) else Char.ofNat (87 + n)

/-- Model of Python bytes.hex: each byte becomes two lowercase hex digits. -/
def bytesToHex : List Nat → List Char
  | [] => []
  | b :: rest => hexDigitChar (b / 16) :: hexDigitChar (b % 16) :: bytesToHex rest

/-- Value of a lowercase hex digit character (inverse of hexDigitChar). -/
def hexDigitVal (c : Char) : Nat :=
  if c.toNat ≥ 97 then c.toNat - 87 else c.toNat - 48

/-- Model of Python bytes.fromhex on the lowercase output of bytes.hex:
consecutive pairs of hex digits become bytes. -/
def hexToBytes : List Char → List Nat
  | a :: b :: rest => (hexDigitVal a * 16 + hexDigitVal b) :: hexToBytes rest
  | _ => []

theorem hexDigitVal_hexDigitChar (d : Nat) (h : d < 16) :
    hexDigitVal (hexDigitChar d) = d := by
  interval_cases d <;> decide

theorem hexToBytes_bytesToHex (bs : List Nat) (h : ∀ b ∈ bs, b < 256) :
    hexToBytes (bytesToHex bs) = bs := by
  induction bs with
  | nil => rfl
  | cons b rest ih =>
    have hb : b < 256 := h b (List.mem_cons_self b rest)
    have hdiv : b / 16 < 16 := by omega
    have hmod : b % 16 < 16 := Nat.mod_lt _ (by omega)
    simp only [bytesToHex, hexToBytes,
      hexDigitVal_hexDigitChar _ hdiv, hexDigitVal_hexDigitChar _ hmod]
    rw [ih (fun x hx => h x (List.mem_cons_of_mem _ hx))]
    congr 1
    omega

/-! The credential cache (pam_nextcloud.py lines 291-435).

A cache entry mirrors the JSON record written by _cache_password:
username, hex-encoded PBKDF2 hash, hex-encoded salt, unix timestamp.
The store maps a username (standing for the per-user cache file) to an
optional entry. The PBKDF2-HMAC-SHA256 key-derivation function is a
parameter H taking the password, the salt bytes and the iteration count. -/

structure CacheEntry where
  username : String
  password_hash : String
  salt : String
  timestamp : Nat
deriving DecidableEq

def CacheStore : Type := String → Option CacheEntry

/-- Pointwise update of the cache store (one file per username). -/
def setEntry (s : CacheStore) (u : String) (e : Option CacheEntry) : CacheStore :=
  fun v => if v = u then e else s v

/-- Events recorded against the credential cache. -/
inductive CacheOp
  | read (user : String)
  | write (user : String) (password : String)
  | delete (user : String)
deriving DecidableEq

/-- Events recorded against the remote identity provider. -/
inductive RemoteEvent
  | authCheck (user password : String)
  | passwordUpdate (user old_password new_password : String)
deriving DecidableEq

/-- Configuration fields of NextcloudAuth relevant to the decision logic
(pam_nextcloud.py lines 52-66): nextcloud_url (None when unset),
enable_cache, cache_expiry_days. -/
structure AuthConfig where
  nextcloud_url : Option String
  enable_cache : Bool
  cache_expiry_days : Nat

/-- Python truthiness test for the url field: None and the empty string
are falsy. -/
def urlFalsy : Option String → Bool
  | none => true
  | some s => s.isEmpty

/-- _hash_password (lines 305-319): PBKDF2-HMAC-SHA256 of the password with
the given salt and 100000 iterations, hex-encoded. H is the key-derivation
function. -/
def hash_password (H : String → List Nat → Nat → List Nat)
    (password : String) (salt : List Nat) : String :=
  String.mk (bytesToHex (H password salt 100000))

/-- _cache_password (lines 321-361): when caching is enabled, hash the
password with a fresh random salt (here an input) and write the entry for
the user. Returns the recorded cache events and the updated store. -/
def cache_password (H : String → List Nat → Nat → List Nat)
    (cfg : AuthConfig) (store : CacheStore) (now : Nat) (salt : List Nat)
    (username password : String) : List CacheOp × CacheStore :=
  if cfg.enable_cache then
    let entry : CacheEntry :=
      { username := username
        password_hash := hash_password H password salt
        salt := String.mk (bytesToHex salt)
        timestamp := now }
    ([CacheOp.write username password], setEntry store username (some entry))
  else ([], store)

/-- _is_cache_expired (lines 363-378): expiry_days = 0 means never expire;
otherwise the entry is expired when the current time exceeds the creation
timestamp plus expiry_days in seconds. -/
def is_cache_expired (cfg : AuthConfig) (now ts : Nat) : Bool :=
  if cfg.cache_expiry_days = 0 then false
  else decide (now > ts + cfg.cache_expiry_days * 24 * 3600)

/-- _validate_cached_password (lines 380-435): look up the entry, delete it
if expired, check the stored username, recompute the hash with the stored
salt and compare. Returns the decision, the cache events and the store. -/
def validate_cached_password (H : String → List Nat → Nat → List Nat)
    (cfg : AuthConfig) (store : CacheStore) (now : Nat)
    (username password : String) : Bool × List CacheOp × CacheStore :=
  if cfg.enable_cache then
    match store username with
    | none => (false, [CacheOp.read username], store)
    | some entry =>
      if is_cache_expired cfg now entry.timestamp then
        (false, [CacheOp.read username, CacheOp.delete username],
          setEntry store username none)
      else if entry.username ≠ username then
        (false, [CacheOp.read username], store)
      else if hash_password H password (hexToBytes entry.salt.data) = entry.password_hash then
        (true, [CacheOp.read username], store)
      else
        (false, [CacheOp.read username], store)
  else (false, [], store)

/-- Outcome of the credential-verification request issued by authenticate:
HTTP 200, HTTP 401, another status code, or a transport exception. -/
inductive AuthResponse
  | ok200
  | unauthorized401
  | otherCode (n : Nat)
  | timeoutExc
  | sslExc
  | connExc
  | otherExc
deriving DecidableEq

/-- A response is ambiguous when it is neither the unambiguous accept (200)
nor the unambiguous reject (401). -/
def isAmbiguous : AuthResponse → Bool
  | .ok200 => false
  | .unauthorized401 => false
  | _ => true

/-- Result of authenticate: the decision, the remote requests issued, the
cache events recorded, and the cache store afterwards. -/
structure AuthOutcome where
  granted : Bool
  remote : List RemoteEvent
  ops : List CacheOp
  store : CacheStore

/-- authenticate (lines 437-530): refuse when unconfigured or when username
or password is empty; otherwise issue the credential check. 200 caches the
password (when enabled) and grants; 401 denies immediately without touching
the cache; any other outcome falls back to the cache when enabled. -/
def authenticate (H : String → List Nat → Nat → List Nat)
    (cfg : AuthConfig) (store : CacheStore) (now : Nat) (salt : List Nat)
    (username password : String) (resp : AuthResponse) : AuthOutcome :=
  if urlFalsy cfg.nextcloud_url then ⟨false, [], [], store⟩
  else if username.isEmpty || password.isEmpty then ⟨false, [], [], store⟩
  else
    match resp with
    | .ok200 =>
      if cfg.enable_cache then
        let w := cache_password H cfg store now salt username password
        ⟨true, [RemoteEvent.authCheck username password], w.1, w.2⟩
      else ⟨true, [RemoteEvent.authCheck username password], [], store⟩
    | .unauthorized401 =>
      ⟨false, [RemoteEvent.authCheck username password], [], store⟩
    | _ =>
      if cfg.enable_cache then
        let v := validate_cached_password H cfg store now username password
        ⟨v.1, [RemoteEvent.authCheck username password], v.2.1, v.2.2⟩
      else ⟨false, [RemoteEvent.authCheck username password], [], store⟩

/-- Structured body of an OCS password-change response: a meta section with
optional status, statuscode and message fields; a parseable body without a
meta section; or an unparseable body. -/
inductive OcsBody
  | withMeta (status : Option String) (statuscode : Option String)
      (message : Option String)
  | noMeta
  | unparseable
deriving DecidableEq

/-- Outcome of the password-update PUT request: an HTTP status code carrying
a body, or a transport exception. -/
inductive ChangeHttp
  | http (code : Nat) (body : OcsBody)
  | timeoutExc
  | sslExc
  | connExc
  | otherExc
deriving DecidableEq

/-- Result of change_password: the decision, the remote requests issued,
the cache events, and the cache store afterwards. -/
structure ChangeOutcome where
  success : Bool
  remote : List RemoteEvent
  ops : List CacheOp
  store : CacheStore

/-- change_password (lines 532-624): refuse when unconfigured or when any
argument is empty; verify the old password through authenticate; on denial
abort without issuing the update request. Otherwise issue the PUT; the
code branches only on the HTTP status code: 200 updates the cache (when
enabled) and reports success, every other code or exception reports
failure. The structured body is never inspected. -/
def change_password (H : String → List Nat → Nat → List Nat)
    (cfg : AuthConfig) (store : CacheStore) (now : Nat)
    (saltOld saltNew : List Nat) (username old_password new_password : String)
    (authResp : AuthResponse) (chgResp : ChangeHttp) : ChangeOutcome :=
  if urlFalsy cfg.nextcloud_url then ⟨false, [], [], store⟩
  else if username.isEmpty || old_password.isEmpty || new_password.isEmpty then
    ⟨false, [], [], store⟩
  else
    let auth := authenticate H cfg store now saltOld username old_password authResp
    if ¬ auth.granted then ⟨false, auth.remote, auth.ops, auth.store⟩
    else
      let remote := auth.remote ++
        [RemoteEvent.passwordUpdate username old_password new_password]
      match chgResp with
      | .http code _ =>
        if code = 200 then
          if cfg.enable_cache then
            let w := cache_password H cfg auth.store now saltNew username new_password
            ⟨true, remote, auth.ops ++ w.1, w.2⟩
          else ⟨true, remote, auth.ops, auth.store⟩
        else ⟨false, remote, auth.ops, auth.store⟩
      | _ => ⟨false, remote, auth.ops, auth.store⟩

/-- The repository's own interpretation of an HTTP-200 password-change
response, from test_nextcloud_passwd.py lines 107-151 (change_password_api):
with a meta section, success means status ok or statuscode 100; a missing
meta section or an unparseable body is assumed successful there. -/
def change_api_200_success : OcsBody → Bool
  | .withMeta status statuscode _ =>
      (status == some "ok") || (statuscode == some "100")
  | .noMeta => true
  | .unparseable => true

/-! Group synchronization (pam_nextcloud_groups.py). -/

/-- GroupSync configuration (pam_nextcloud_groups.py lines 27-60):
the explicit mapping table, the managed-groups name prefix (source field
managed_groups_prefix, renamed here), the sudo-mapping heuristic flag, and
whether missing groups are auto-created. -/
structure GroupSyncConfig where
  group_mapping : String → Option (List String)
  managed_groups_pfx : String
  enable_sudo_mapping : Bool
  create_missing_groups : Bool

/-- Python str.lower, character by character. -/
def pyLower (s : String) : String := String.mk (s.data.map Char.toLower)

/-- Python str.strip applied with the underscore character: drop leading
and trailing underscores. -/
def stripUnderscores (l : List Char) : List Char :=
  ((l.dropWhile (· = '_')).reverse.dropWhile (· = '_')).reverse

/-- _normalize_group_name (lines 158-178): keep alphanumerics, hyphen and
underscore, replace every other character by an underscore; lower-case;
strip underscores; prepend the configured prefix when it is set and the
name does not already start with it. -/
def normalize_group_name (cfg : GroupSyncConfig) (nextcloud_group : String) : String :=
  let replaced := nextcloud_group.data.map
    (fun c => if c.isAlphanum || c = '-' || c = '_' then c else '_')
  let normalized := String.mk (stripUnderscores (replaced.map Char.toLower))
  if ¬ cfg.managed_groups_pfx.isEmpty ∧
      ¬ normalized.startsWith cfg.managed_groups_pfx then
    cfg.managed_groups_pfx ++ normalized
  else normalized

/-- _get_mapped_groups (lines 180-207): explicit mapping first; then, when
the sudo heuristic is enabled and the lower-cased name is an admin-like
name, the first of sudo, wheel, admin that exists locally; otherwise the
normalized name. groupExists models _group_exists (lines 66-72). -/
def get_mapped_groups (cfg : GroupSyncConfig) (groupExists : String → Bool)
    (nextcloud_group : String) : List String :=
  match cfg.group_mapping nextcloud_group with
  | some gs => gs
  | none =>
    if cfg.enable_sudo_mapping then
      if pyLower nextcloud_group ∈ (["admin", "admins", "administrators"] : List String) then
        if groupExists "sudo" then ["sudo"]
        else if groupExists "wheel" then ["wheel"]
        else if groupExists "admin" then ["admin"]
        else [normalize_group_name cfg nextcloud_group]
      else [normalize_group_name cfg nextcloud_group]
    else [normalize_group_name cfg nextcloud_group]

/-- Operations performed by GroupSync.sync_groups against the OS. -/
inductive GOp
  | createGroup (g : String)
  | addUser (u g : String)
deriving DecidableEq

/-- Outcome oracles for the OS commands run by sync_groups: whether a
groupadd and a gpasswd -a invocation would succeed. -/
structure SyncEnv where
  createOk : String → Bool
  addOk : String → String → Bool

/-- State carried through the sync_groups loops: the local membership map
(group to member set, read by _user_in_group), the local-group existence
predicate (read by _group_exists, extended on successful creation), the
running success flag, the synced_groups list and the operation trace. -/
structure SyncState where
  members : String → Finset String
  existing : String → Bool
  success : Bool
  synced : List String
  ops : List GOp

/-- Body of the inner loop of sync_groups (lines 232-257) for one mapped
linux group: an existing member is only recorded as synced; a missing
group is created when auto-creation is enabled (a failed creation clears
the success flag and skips the group, a disabled auto-creation just skips);
then the user is added, recording success or clearing the flag. -/
def syncOneLinuxGroup (cfg : GroupSyncConfig) (env : SyncEnv) (username : String)
    (st : SyncState) (linux_group : String) : SyncState :=
  if username ∈ st.members linux_group then
    { st with synced := st.synced ++ [linux_group] }
  else if ¬ st.existing linux_group then
    if cfg.create_missing_groups then
      if env.createOk linux_group then
        let st1 : SyncState :=
          { st with
            existing := fun g => if g = linux_group then true else st.existing g
            ops := st.ops ++ [GOp.createGroup linux_group] }
        if env.addOk username linux_group then
          { st1 with
            members := fun g => if g = linux_group then
                insert username (st1.members g) else st1.members g
            synced := st1.synced ++ [linux_group]
            ops := st1.ops ++ [GOp.addUser username linux_group] }
        else
          { st1 with success := false
                     ops := st1.ops ++ [GOp.addUser username linux_group] }
      else
        { st with success := false
                  ops := st.ops ++ [GOp.createGroup linux_group] }
    else st
  else
    if env.addOk username linux_group then
      { st with
        members := fun g => if g = linux_group then
            insert username (st.members g) else st.members g
        synced := st.synced ++ [linux_group]
        ops := st.ops ++ [GOp.addUser username linux_group] }
    else
      { st with success := false
                ops := st.ops ++ [GOp.addUser username linux_group] }

/-- sync_groups (lines 209-263): for every Nextcloud group, resolve the
mapped linux groups against the current existence predicate and run the
inner loop over them. An empty group list leaves the initial state (the
code returns True at once). -/
def sync_groups (cfg : GroupSyncConfig) (env : SyncEnv) (username : String)
    (nextcloud_groups : List String)
    (members : String → Finset String) (existing : String → Bool) : SyncState :=
  nextcloud_groups.foldl
    (fun st nc_group =>
      (get_mapped_groups cfg st.existing nc_group).foldl
        (syncOneLinuxGroup cfg env username) st)
    ⟨members, existing, true, [], []⟩

/-! Bulk reconciliation (pam-nextcloud-sync.py, sync_group_membership and
the sync-all-groups loop of main). Python iterates the add and remove sets
in the interpreter's set order; that order is modelled by an enumeration
parameter e that lists the elements of a finite set. -/

/-- An enumeration of finite string sets: for every set it lists exactly
the elements, without repetition, in some order. -/
def ValidEnum (e : Finset String → List String) : Prop :=
  ∀ s : Finset String, (e s).Nodup ∧ (e s).toFinset = s

/-- users_to_add of sync_group_membership (line 549): remote members not
currently in the local group. -/
def users_to_add (nextcloud_members local_members : Finset String) : Finset String :=
  nextcloud_members \ local_members

/-- users_to_remove of sync_group_membership (line 550): local members not
in the remote group. -/
def users_to_remove (nextcloud_members local_members : Finset String) : Finset String :=
  local_members \ nextcloud_members

/-- Membership operations issued for one linux group. -/
inductive MOp
  | add (u g : String)
  | remove (u g : String)
deriving DecidableEq

/-- The operation sequence produced for one linux group by the loops of
sync_group_membership (lines 552-581): first the additions over the
enumeration of users_to_add, skipping users that do not exist locally,
then the removals over the enumeration of users_to_remove, again skipping
users that do not exist locally. -/
def sync_membership_ops (e : Finset String → List String)
    (userExists : String → Bool) (linux_group : String)
    (nextcloud_members local_members : Finset String) : List MOp :=
  ((e (users_to_add nextcloud_members local_members)).filter userExists).map
    (fun u => MOp.add u linux_group) ++
  ((e (users_to_remove nextcloud_members local_members)).filter userExists).map
    (fun u => MOp.remove u linux_group)

/-- The effect of one sync_group_membership pass on the local member set of
one group, assuming every attempted command succeeds: the removals that
were applied leave, the additions that were applied join. -/
def apply_membership_sync (userExists : String → Bool)
    (nextcloud_members local_members : Finset String) : Finset String :=
  (local_members \
      (users_to_remove nextcloud_members local_members).filter
        (fun u => userExists u = true)) ∪
    (users_to_add nextcloud_members local_members).filter
      (fun u => userExists u = true)

/-- sync_group_membership (lines 519-583) for one Nextcloud group: resolve
the mapped linux groups; when the mapping yields nothing, fall back to the
group name itself when it exists locally; then for every mapped group that
exists locally emit the per-group operation sequence. -/
def sync_group_membership_ops (e : Finset String → List String)
    (cfg : GroupSyncConfig) (groupExists : String → Bool)
    (userExists : String → Bool) (localMembers : String → Finset String)
    (nc_group : String) (nextcloud_members : Finset String) : List MOp :=
  let linux_groups := get_mapped_groups cfg groupExists nc_group
  let linux_groups :=
    if linux_groups.isEmpty then
      if groupExists nc_group then [nc_group] else []
    else linux_groups
  (linux_groups.map (fun g =>
    if groupExists g then
      sync_membership_ops e userExists g nextcloud_members (localMembers g)
    else [])).flatten

/-- Lexicographic order on string pairs, as used by Python sorted on the
common_groups tuples. -/
def pairLeB (a b : String × String) : Bool :=
  decide (a.1 < b.1) || (decide (a.1 = b.1) && decide (a.2 ≤ b.2))

/-- Insert a pair into a sorted list of pairs. -/
def insertPair (x : String × String) :
    List (String × String) → List (String × String)
  | [] => [x]
  | y :: ys => if pairLeB x y then x :: y :: ys else y :: insertPair x ys

/-- Model of Python sorted on the list of (nextcloud group, linux group)
pairs. -/
def sortPairs : List (String × String) → List (String × String)
  | [] => []
  | x :: xs => insertPair x (sortPairs xs)

/-- The full operation sequence of the sync-all-groups mode of main
(pam-nextcloud-sync.py lines 683-737): iterate the common group pairs in
sorted order and run sync_group_membership for each. -/
def bulk_sync_ops (e : Finset String → List String) (cfg : GroupSyncConfig)
    (groupExists : String → Bool) (userExists : String → Bool)
    (localMembers : String → Finset String)
    (ncMembersOf : String → Finset String)
    (common_groups : List (String × String)) : List MOp :=
  ((sortPairs common_groups).map (fun p =>
    sync_group_membership_ops e cfg groupExists userExists localMembers
      p.1 (ncMembersOf p.1))).flatten

/-! Module structure of pam_nextcloud.py (claim C10).

The class body of NextcloudAuth (lines 49-123) executes exactly three def
statements; __init__ (lines 52-66) sets exactly seven instance attributes.
The def statements for _get_cache_file_path, _hash_password,
_cache_password, _is_cache_expired, _validate_cached_password,
authenticate, change_password and get_user_groups (lines 291-693) are
indented inside the module-level function _ensure_home_directory
(lines 259-289), after code in which every control path returns, so they
never execute and bind nothing on the class. -/

/-- The method names bound by executing the class body of NextcloudAuth
(lines 49-123). -/
def nextcloudAuthClassMethods : List String :=
  ["__init__", "load_config", "_ensure_cache_directory"]

/-- The instance attributes set by NextcloudAuth.__init__ (lines 52-66). -/
def nextcloudAuthInstanceAttrs : List String :=
  ["config_path", "nextcloud_url", "verify_ssl", "timeout",
   "enable_cache", "cache_expiry_days", "cache_directory"]

/-- Python hasattr on a constructed NextcloudAuth instance: an attribute is
found among the instance attributes or the class methods. -/
def nextcloudAuthHasattr (name : String) : Bool :=
  nextcloudAuthInstanceAttrs.contains name ||
    nextcloudAuthClassMethods.contains name

/-- The environment read by _ensure_home_directory: the create_home flag,
the pwd lookup result for the user (none models KeyError), and whether an
OS error is raised inside the try block. -/
structure HomeEnv where
  create_home : Bool
  pwdLookup : Bool
  osFailure : Bool

/-- _ensure_home_directory (lines 259-289): returns True when create_home
is off; then the try block returns True at line 282 on every non-raising
path, KeyError returns False, any other exception returns False. Every
control path produces a value here, so the nested def statements at lines
291-693 are never reached. -/
def ensure_home_directory (env : HomeEnv) : Bool :=
  if ¬ env.create_home then true
  else if ¬ env.pwdLookup then false
  else if env.osFailure then false
  else true

/-- PAM result codes used by pam_sm_authenticate. -/
inductive PamResult
  | success
  | authErr
  | userUnknown
deriving DecidableEq

/-- pam_sm_authenticate (lines 700-817), reduced to its decision on the
inputs it branches on: no username gives PAM_USER_UNKNOWN, no password
gives PAM_AUTH_ERR, a constructed authenticator without an authenticate
attribute gives PAM_AUTH_ERR (lines 765-768), and otherwise the result of
the authenticate call (a parameter here) decides between PAM_SUCCESS and
PAM_AUTH_ERR. -/
def pam_sm_authenticate_model (username password : String)
    (authenticateResult : Bool) : PamResult :=
  if username.isEmpty then .userUnknown
  else if password.isEmpty then .authErr
  else if ¬ nextcloudAuthHasattr "authenticate" then .authErr
  else if authenticateResult then .success
  else .authErr

/-! Shared helper definitions and lemmas for the enumeration-sensitive
claims about bulk reconciliation. -/

/-- Byte-wise comparison of character lists (code-point order), used to
build a concrete computable enumeration of string sets. -/
def charsLeB : List Char → List Char → Bool
  | [], _ => true
  | _ :: _, [] => false
  | a :: as, b :: bs =>
    if a.toNat < b.toNat then true
    else if b.toNat < a.toNat then false
    else charsLeB as bs

theorem charsLeB_total : ∀ as bs, charsLeB as bs = true ∨ charsLeB bs as = true := by
  intro as
  induction as with
  | nil => intro bs; exact Or.inl rfl
  | cons a as ih =>
    intro bs
    cases bs with
    | nil => exact Or.inr rfl
    | cons b bs =>
      simp only [charsLeB]
      by_cases h1 : a.toNat < b.toNat
      · exact Or.inl (by rw [if_pos h1])
      · by_cases h2 : b.toNat < a.toNat
        · exact Or.inr (by rw [if_pos h2])
        · rw [if_neg h1, if_neg h2, if_neg h2, if_neg h1]
          exact ih bs

theorem charsLeB_trans : ∀ as bs cs, charsLeB as bs = true →
    charsLeB bs cs = true → charsLeB as cs = true := by
  intro as
  induction as with
  | nil => intro bs cs h1 h2; rfl
  | cons a as ih =>
    intro bs cs h1 h2
    cases bs with
    | nil => simp [charsLeB] at h1
    | cons b bs =>
      cases cs with
      | nil => simp [charsLeB] at h2
      | cons c cs =>
        simp only [charsLeB] at h1 h2 ⊢
        by_cases hab : a.toNat < b.toNat
        · by_cases hbc : b.toNat < c.toNat
          · rw [if_pos (show a.toNat < c.toNat by omega)]
          · by_cases hcb : c.toNat < b.toNat
            · rw [if_neg hbc, if_pos hcb] at h2
              exact absurd h2 (by simp)
            · rw [if_pos (show a.toNat < c.toNat by omega)]
        · by_cases hba : b.toNat < a.toNat
          · rw [if_neg hab, if_pos hba] at h1
            exact absurd h1 (by simp)
          · rw [if_neg hab, if_neg hba] at h1
            by_cases hbc : b.toNat < c.toNat
            · rw [if_pos (show a.toNat < c.toNat by omega)]
            · by_cases hcb : c.toNat < b.toNat
              · rw [if_neg hbc, if_pos hcb] at h2
                exact absurd h2 (by simp)
              · rw [if_neg hbc, if_neg hcb] at h2
                rw [if_neg (show ¬ a.toNat < c.toNat by omega),
                  if_neg (show ¬ c.toNat < a.toNat by omega)]
                exact ih bs cs h1 h2

theorem charsLeB_antisymm : ∀ as bs, charsLeB as bs = true →
    charsLeB bs as = true → as = bs := by
  intro as
  induction as with
  | nil =>
    intro bs h1 h2
    cases bs with
    | nil => rfl
    | cons b bs => simp [charsLeB] at h2
  | cons a as ih =>
    intro bs h1 h2
    cases bs with
    | nil => simp [charsLeB] at h1
    | cons b bs =>
      simp only [charsLeB] at h1 h2
      by_cases hab : a.toNat < b.toNat
      · rw [if_neg (show ¬ b.toNat < a.toNat by omega), if_pos hab] at h2
        exact absurd h2 (by simp)
      · by_cases hba : b.toNat < a.toNat
        · rw [if_neg hab, if_pos hba] at h1
          exact absurd h1 (by simp)
        · rw [if_neg hab, if_neg hba] at h1
          rw [if_neg hba, if_neg hab] at h2
          have h3 : a.toNat = b.toNat := by omega
          have heq : a = b := Char.ext (UInt32.ext h3)
          rw [heq, ih bs h1 h2]

/-- Code-point order on strings, as a proposition. -/
def strLe (a b : String) : Prop := charsLeB a.data b.data = true

instance : DecidableRel strLe :=
  fun a b => inferInstanceAs (Decidable (charsLeB a.data b.data = true))

instance : IsTotal String strLe := ⟨fun a b => charsLeB_total a.data b.data⟩

instance : IsTrans String strLe :=
  ⟨fun a b c h1 h2 => charsLeB_trans a.data b.data c.data h1 h2⟩

instance : IsAntisymm String strLe :=
  ⟨fun a b h1 h2 => String.ext (charsLeB_antisymm a.data b.data h1 h2)⟩

theorem insertionSort_perm_invariant {l1 l2 : List String} (h : l1.Perm l2) :
    List.insertionSort strLe l1 = List.insertionSort strLe l2 :=
  List.eq_of_perm_of_sorted
    ((List.perm_insertionSort strLe l1).trans
      (h.trans (List.perm_insertionSort strLe l2).symm))
    (List.sorted_insertionSort strLe l1)
    (List.sorted_insertionSort strLe l2)

/-- The enumeration that lists a finite string set in ascending code-point
order. -/
def sortEnum (s : Finset String) : List String :=
  Quotient.lift (fun l => List.insertionSort strLe l)
    (fun _ _ h => insertionSort_perm_invariant h) s.val

/-- The enumeration that lists a finite string set in descending code-point
order. -/
def revSortEnum (s : Finset String) : List String := (sortEnum s).reverse

theorem sortEnum_valid : ValidEnum sortEnum := by
  intro s
  rcases s with ⟨val, hnodup⟩
  revert hnodup
  refine Quotient.inductionOn val ?_
  intro l hl
  have hperm : (List.insertionSort strLe l).Perm l := List.perm_insertionSort strLe l
  have hln : l.Nodup := hl
  constructor
  · exact hperm.nodup_iff.mpr hln
  · apply Finset.ext
    intro a
    rw [List.mem_toFinset]
    show a ∈ List.insertionSort strLe l ↔ a ∈ Multiset.ofList l
    rw [hperm.mem_iff, Multiset.mem_coe]

theorem revSortEnum_valid : ValidEnum revSortEnum := by
  intro s
  constructor
  · exact List.nodup_reverse.mpr (sortEnum_valid s).1
  · rw [revSortEnum, List.toFinset_reverse]
    exact (sortEnum_valid s).2

theorem validEnum_empty {e : Finset String → List String} (h : ValidEnum e) :
    e ∅ = [] :=
  (List.toFinset_eq_empty_iff (e ∅)).mp (h ∅).2

theorem validEnum_perm {e₁ e₂ : Finset String → List String}
    (h₁ : ValidEnum e₁) (h₂ : ValidEnum e₂) (s : Finset String) :
    (e₁ s).Perm (e₂ s) :=
  List.perm_of_nodup_nodup_toFinset_eq (h₁ s).1 (h₂ s).1
    ((h₁ s).2.trans (h₂ s).2.symm)

theorem flatten_map_perm {α β : Type} (l : List α) (f g : α → List β)
    (h : ∀ x ∈ l, (f x).Perm (g x)) :
    ((l.map f).flatten).Perm ((l.map g).flatten) := by
  induction l with
  | nil => simp
  | cons x xs ih =>
    simp only [List.map_cons, List.flatten_cons]
    exact (h x (List.mem_cons_self x xs)).append
      (ih (fun y hy => h y (List.mem_cons_of_mem _ hy)))

/-- Whether a remote event is the password-update PUT request. -/
def isPasswordUpdate : RemoteEvent → Bool
  | .passwordUpdate _ _ _ => true
  | _ => false

theorem authenticate_remote_shape
    (H : String → List Nat → Nat → List Nat) (cfg : AuthConfig)
    (store : CacheStore) (now : Nat) (salt : List Nat)
    (username password : String) (resp : AuthResponse) :
    (authenticate H cfg store now salt username password resp).remote = [] ∨
    (authenticate H cfg store now salt username password resp).remote =
      [RemoteEvent.authCheck username password] := by
  unfold authenticate
  split_ifs with h1 h2 h3
  · exact Or.inl rfl
  · exact Or.inl rfl
  all_goals cases resp <;> exact Or.inr rfl

theorem authenticate_remote_eq
    (H : String → List Nat → Nat → List Nat) (cfg : AuthConfig)
    (store : CacheStore) (now : Nat) (salt : List Nat)
    (username password : String) (resp : AuthResponse)
    (hurl : urlFalsy cfg.nextcloud_url = false)
    (hu : username.isEmpty = false) (hp : password.isEmpty = false) :
    (authenticate H cfg store now salt username password resp).remote =
      [RemoteEvent.authCheck username password] := by
  unfold authenticate
  rw [hurl, hu, hp]
  simp only [Bool.or_self, if_false, Bool.false_eq_true]
  cases resp <;> first
    | rfl
    | (split_ifs <;> rfl)

theorem validate_no_write
    (H : String → List Nat → Nat → List Nat) (cfg : AuthConfig)
    (store : CacheStore) (now : Nat) (username password u2 p2 : String) :
    CacheOp.write u2 p2 ∉
      (validate_cached_password H cfg store now username password).2.1 := by
  unfold validate_cached_password
  split_ifs with h1
  · match hs : store username with
    | none => simp [hs]
    | some entry => dsimp only; split_ifs <;> simp
  · simp

/-! Claim theorems. -/

/-- C1: for every username and password, when the credential-verification
request returns the unambiguous reject HTTP 401, authenticate denies
immediately, records no cache operation at all (in particular no cache
read), and leaves the cache store untouched, whatever the cache holds for
that username. -/
theorem authenticate_401_denies_without_cache
    (H : String → List Nat → Nat → List Nat) (cfg : AuthConfig)
    (store : CacheStore) (now : Nat) (salt : List Nat)
    (username password : String) :
    (authenticate H cfg store now salt username password .unauthorized401).granted = false ∧
    (authenticate H cfg store now salt username password .unauthorized401).ops = [] ∧
    (authenticate H cfg store now salt username password .unauthorized401).store = store := by
  unfold authenticate
  split_ifs <;> exact ⟨rfl, rfl, rfl⟩

/-- C3: during cache-fallback authentication (ambiguous remote outcome,
caching enabled), an entry older than the expiry window with a non-zero
cache_expiry_days is removed from the store and the result is Denied; and
with cache_expiry_days = 0 no entry is ever considered expired, whatever
its age. -/
theorem cache_fallback_expiry
    (H : String → List Nat → Nat → List Nat) (cfg : AuthConfig)
    (store : CacheStore) (now : Nat) (salt : List Nat)
    (username password : String) (resp : AuthResponse) (entry : CacheEntry)
    (hurl : urlFalsy cfg.nextcloud_url = false)
    (hu : username.isEmpty = false) (hp : password.isEmpty = false)
    (hc : cfg.enable_cache = true) (hr : isAmbiguous resp = true)
    (hs : store username = some entry) :
    (cfg.cache_expiry_days ≠ 0 →
      now > entry.timestamp + cfg.cache_expiry_days * 24 * 3600 →
      (authenticate H cfg store now salt username password resp).granted = false ∧
      (authenticate H cfg store now salt username password resp).store username = none) ∧
    (∀ cfg2 : AuthConfig, ∀ now2 ts2 : Nat, cfg2.cache_expiry_days = 0 →
      is_cache_expired cfg2 now2 ts2 = false) := by
  constructor
  · intro hd hage
    have hexp : is_cache_expired cfg now entry.timestamp = true := by
      simp only [is_cache_expired, if_neg hd, decide_eq_true_eq]
      exact hage
    cases resp with
    | ok200 => simp [isAmbiguous] at hr
    | unauthorized401 => simp [isAmbiguous] at hr
    | otherCode n =>
      simp [authenticate, hurl, hu, hp, hc, validate_cached_password, hs,
        hexp, setEntry]
    | timeoutExc =>
      simp [authenticate, hurl, hu, hp, hc, validate_cached_password, hs,
        hexp, setEntry]
    | sslExc =>
      simp [authenticate, hurl, hu, hp, hc, validate_cached_password, hs,
        hexp, setEntry]
    | connExc =>
      simp [authenticate, hurl, hu, hp, hc, validate_cached_password, hs,
        hexp, setEntry]
    | otherExc =>
      simp [authenticate, hurl, hu, hp, hc, validate_cached_password, hs,
        hexp, setEntry]
  · intro cfg2 now2 ts2 h0
    simp [is_cache_expired, h0]

/-- Witness for C3 at a concrete input: an entry created at time 0 with a
7-day expiry, checked 8 days later against an unreachable remote, is
rejected and its cache record removed; and an expiry of 0 never expires. -/
theorem cache_fallback_expiry_witness :
    (authenticate (fun _ _ _ => [0])
      ⟨some "https://cloud.example.com", true, 7⟩
      (setEntry (fun _ => none) "bob" (some ⟨"bob", "ab", "cd", 0⟩))
      691200 [1] "bob" "pw" .timeoutExc).granted = false ∧
    (authenticate (fun _ _ _ => [0])
      ⟨some "https://cloud.example.com", true, 7⟩
      (setEntry (fun _ => none) "bob" (some ⟨"bob", "ab", "cd", 0⟩))
      691200 [1] "bob" "pw" .timeoutExc).store "bob" = none ∧
    is_cache_expired ⟨some "https://cloud.example.com", true, 0⟩ 691200 0 = false := by
  have h := cache_fallback_expiry (fun _ _ _ => [0])
    ⟨some "https://cloud.example.com", true, 7⟩
    (setEntry (fun _ => none) "bob" (some ⟨"bob", "ab", "cd", 0⟩))
    691200 [1] "bob" "pw" .timeoutExc ⟨"bob", "ab", "cd", 0⟩
    rfl rfl rfl rfl rfl (by simp [setEntry])
  have h1 := h.1 (by decide) (by norm_num)
  exact ⟨h1.1, h1.2, h.2 ⟨some "https://cloud.example.com", true, 0⟩ 691200 0 rfl⟩

/-- C10: the NextcloudAuth class binds no authenticate, change_password,
get_user_groups or cache method (those def statements sit unreachably
inside _ensure_home_directory after returns on every path), so a
constructed instance lacks an authenticate attribute and the hasattr guard
of pam_sm_authenticate returns PAM_AUTH_ERR, without raising, for every
login attempt that supplies a username and a password. -/
theorem pam_sm_authenticate_fails_closed :
    nextcloudAuthHasattr "authenticate" = false ∧
    nextcloudAuthHasattr "change_password" = false ∧
    nextcloudAuthHasattr "get_user_groups" = false ∧
    nextcloudAuthHasattr "_cache_password" = false ∧
    nextcloudAuthHasattr "_validate_cached_password" = false ∧
    (∀ username password : String, ∀ authenticateResult : Bool,
      username.isEmpty = false → password.isEmpty = false →
      pam_sm_authenticate_model username password authenticateResult =
        PamResult.authErr) := by
  refine ⟨by decide, by decide, by decide, by decide, by decide, ?_⟩
  intro username password r hu hp
  simp [pam_sm_authenticate_model, hu, hp,
    show nextcloudAuthHasattr "authenticate" = false by decide]

/-- Witness for C10 at a concrete login attempt: hasattr fails and the
guard returns PAM_AUTH_ERR even when the would-be authenticate call would
have succeeded. -/
theorem pam_sm_authenticate_fails_closed_witness :
    pam_sm_authenticate_model "alice" "hunter2" true = PamResult.authErr :=
  pam_sm_authenticate_fails_closed.2.2.2.2.2 "alice" "hunter2" true rfl rfl

/-- C4: the keyed hash is deterministic in (password, salt): decoding the
stored hex salt and re-hashing the same password with the fixed iteration
count reproduces the stored hash. Consequently, after _cache_password
writes an entry for a user, _validate_cached_password accepts the same
password while the entry is unexpired (the stored username matches by
construction), and rejects any password whose recomputed hash differs
from the stored one. -/
theorem cache_hash_roundtrip
    (H : String → List Nat → Nat → List Nat) (cfg : AuthConfig)
    (store : CacheStore) (now now2 : Nat) (salt : List Nat)
    (username password : String)
    (hc : cfg.enable_cache = true) (hsalt : ∀ b ∈ salt, b < 256) :
    ((cache_password H cfg store now salt username password).2 username =
      some { username := username
             password_hash := hash_password H password salt
             salt := String.mk (bytesToHex salt)
             timestamp := now }) ∧
    (hash_password H password (hexToBytes (String.mk (bytesToHex salt)).data) =
      hash_password H password salt) ∧
    (is_cache_expired cfg now2 now = false →
      (validate_cached_password H cfg
        (cache_password H cfg store now salt username password).2
        now2 username password).1 = true) ∧
    (∀ p2 : String,
      hash_password H p2 (hexToBytes (String.mk (bytesToHex salt)).data) ≠
        hash_password H password salt →
      (validate_cached_password H cfg
        (cache_password H cfg store now salt username password).2
        now2 username p2).1 = false) := by
  have hrt : hexToBytes (String.mk (bytesToHex salt)).data = salt :=
    hexToBytes_bytesToHex salt hsalt
  refine ⟨?_, ?_, ?_, ?_⟩
  · simp [cache_password, hc, setEntry]
  · rw [hrt]
  · intro hne
    simp [validate_cached_password, hc, cache_password, setEntry, hne, hrt]
  · intro p2 hp2
    rw [hrt] at hp2
    by_cases hex : is_cache_expired cfg now2 now = true
    · simp [validate_cached_password, hc, cache_password, setEntry, hex]
    · simp only [Bool.not_eq_true] at hex
      simp [validate_cached_password, hc, cache_password, setEntry, hex, hrt, hp2]

/-- Witness for C4 at a concrete input: with a small concrete
key-derivation function and salt, the cached entry validates the cached
password and rejects a password whose hash differs. -/
theorem cache_hash_roundtrip_witness :
    (validate_cached_password (fun p s _ => [(p.length + s.length) % 256])
      ⟨some "https://cloud.example.com", true, 7⟩
      (cache_password (fun p s _ => [(p.length + s.length) % 256])
        ⟨some "https://cloud.example.com", true, 7⟩
        (fun _ => none) 0 [7, 200] "u" "pw").2
      3600 "u" "pw").1 = true ∧
    (validate_cached_password (fun p s _ => [(p.length + s.length) % 256])
      ⟨some "https://cloud.example.com", true, 7⟩
      (cache_password (fun p s _ => [(p.length + s.length) % 256])
        ⟨some "https://cloud.example.com", true, 7⟩
        (fun _ => none) 0 [7, 200] "u" "pw").2
      3600 "u" "longerpw").1 = false := by
  have h := cache_hash_roundtrip (fun p s _ => [(p.length + s.length) % 256])
    ⟨some "https://cloud.example.com", true, 7⟩
    (fun _ => none) 0 3600 [7, 200] "u" "pw" rfl (by decide)
  exact ⟨h.2.2.1 (by decide), h.2.2.2 "longerpw" (by decide)⟩

theorem change_password_denied
    (H : String → List Nat → Nat → List Nat) (cfg : AuthConfig)
    (store : CacheStore) (now : Nat) (saltOld saltNew : List Nat)
    (username old_password new_password : String)
    (authResp : AuthResponse) (chgResp : ChangeHttp)
    (hden : (authenticate H cfg store now saltOld username old_password
      authResp).granted = false) :
    (change_password H cfg store now saltOld saltNew username old_password
      new_password authResp chgResp).success = false ∧
    ((change_password H cfg store now saltOld saltNew username old_password
        new_password authResp chgResp).remote = [] ∨
      (change_password H cfg store now saltOld saltNew username old_password
        new_password authResp chgResp).remote =
        (authenticate H cfg store now saltOld username old_password
          authResp).remote) := by
  unfold change_password
  by_cases h1 : urlFalsy cfg.nextcloud_url = true
  · rw [if_pos h1]; exact ⟨rfl, Or.inl rfl⟩
  · rw [if_neg h1]
    by_cases h2 : (username.isEmpty || old_password.isEmpty ||
        new_password.isEmpty) = true
    · rw [if_pos h2]; exact ⟨rfl, Or.inl rfl⟩
    · rw [if_neg h2]
      dsimp only
      rw [if_pos (by simp [hden])]
      exact ⟨rfl, Or.inr rfl⟩

/-- C5: change_password never issues the password-update request unless
phase 1 succeeded: when authenticate denies the old password, the result
is Failure and no passwordUpdate event is issued; and whenever the result
is Success, phase 1 was called first with the old password and granted,
and the remote trace is exactly the phase-1 check followed by the update
request. -/
theorem change_password_two_phase
    (H : String → List Nat → Nat → List Nat) (cfg : AuthConfig)
    (store : CacheStore) (now : Nat) (saltOld saltNew : List Nat)
    (username old_password new_password : String)
    (authResp : AuthResponse) (chgResp : ChangeHttp) :
    ((authenticate H cfg store now saltOld username old_password authResp).granted = false →
      (change_password H cfg store now saltOld saltNew username old_password
        new_password authResp chgResp).success = false ∧
      (∀ ev ∈ (change_password H cfg store now saltOld saltNew username
          old_password new_password authResp chgResp).remote,
        isPasswordUpdate ev = false)) ∧
    ((change_password H cfg store now saltOld saltNew username old_password
        new_password authResp chgResp).success = true →
      (authenticate H cfg store now saltOld username old_password authResp).granted = true ∧
      (change_password H cfg store now saltOld saltNew username old_password
        new_password authResp chgResp).remote =
        [RemoteEvent.authCheck username old_password,
         RemoteEvent.passwordUpdate username old_password new_password]) := by
  constructor
  · intro hden
    have hd := change_password_denied H cfg store now saltOld saltNew username
      old_password new_password authResp chgResp hden
    refine ⟨hd.1, ?_⟩
    intro ev hev
    rcases hd.2 with h | h <;> rw [h] at hev
    · simp at hev
    · rcases authenticate_remote_shape H cfg store now saltOld username
          old_password authResp with h2 | h2 <;> rw [h2] at hev
      · simp at hev
      · simp only [List.mem_singleton] at hev
        rw [hev]; rfl
  · intro hsucc
    by_cases hg : (authenticate H cfg store now saltOld username old_password
        authResp).granted = true
    case neg =>
      have hden : (authenticate H cfg store now saltOld username old_password
          authResp).granted = false := by
        simpa using hg
      have hd := change_password_denied H cfg store now saltOld saltNew username
        old_password new_password authResp chgResp hden
      rw [hd.1] at hsucc
      exact absurd hsucc (by simp)
    case pos =>
      refine ⟨hg, ?_⟩
      unfold change_password at hsucc ⊢
      by_cases h1 : urlFalsy cfg.nextcloud_url = true
      · rw [if_pos h1] at hsucc; simp at hsucc
      · rw [if_neg h1] at hsucc ⊢
        by_cases h2 : (username.isEmpty || old_password.isEmpty ||
            new_password.isEmpty) = true
        · rw [if_pos h2] at hsucc; simp at hsucc
        · rw [if_neg h2] at hsucc ⊢
          dsimp only at hsucc ⊢
          rw [if_neg (by simp [hg])] at hsucc ⊢
          have hurl : urlFalsy cfg.nextcloud_url = false := by simpa using h1
          have hemp : username.isEmpty = false ∧ old_password.isEmpty = false := by
            simp only [Bool.or_eq_true, not_or, Bool.not_eq_true] at h2
            exact ⟨h2.1.1, h2.1.2⟩
          have hrem := authenticate_remote_eq H cfg store now saltOld username
            old_password authResp hurl hemp.1 hemp.2
          cases chgResp with
          | http code body =>
            dsimp only at hsucc ⊢
            by_cases hc : code = 200
            · rw [if_pos hc] at hsucc ⊢
              split_ifs <;> simp [hrem]
            · rw [if_neg hc] at hsucc
              simp at hsucc
          | timeoutExc => simp at hsucc
          | sslExc => simp at hsucc
          | connExc => simp at hsucc
          | otherExc => simp at hsucc

/-- Witness for C5 at concrete inputs: a denied old password yields
Failure with no update request issued, and a successful change at another
input exhibits the phase-1-then-phase-2 trace. -/
theorem change_password_two_phase_witness :
    ((change_password (fun _ _ _ => [0]) ⟨some "https://c.example", true, 7⟩
        (fun _ => none) 0 [1] [2] "dave" "badold" "newpw"
        .unauthorized401 (.http 200 OcsBody.noMeta)).success = false ∧
      (∀ ev ∈ (change_password (fun _ _ _ => [0]) ⟨some "https://c.example", true, 7⟩
          (fun _ => none) 0 [1] [2] "dave" "badold" "newpw"
          .unauthorized401 (.http 200 OcsBody.noMeta)).remote,
        isPasswordUpdate ev = false)) ∧
    ((change_password (fun _ _ _ => [0]) ⟨some "https://c.example", true, 7⟩
        (fun _ => none) 0 [1] [2] "dave" "goodold" "newpw"
        .ok200 (.http 200 OcsBody.noMeta)).remote =
      [RemoteEvent.authCheck "dave" "goodold",
       RemoteEvent.passwordUpdate "dave" "goodold" "newpw"]) := by
  refine ⟨?_, ?_⟩
  · exact (change_password_two_phase (fun _ _ _ => [0])
      ⟨some "https://c.example", true, 7⟩ (fun _ => none) 0 [1] [2]
      "dave" "badold" "newpw" .unauthorized401
      (.http 200 OcsBody.noMeta)).1 (by decide)
  · exact ((change_password_two_phase (fun _ _ _ => [0])
      ⟨some "https://c.example", true, 7⟩ (fun _ => none) 0 [1] [2]
      "dave" "goodold" "newpw" .ok200
      (.http 200 OcsBody.noMeta)).2 (by decide)).2

/-- C2 (divergence exhibited): at the failing input — phase 1 accepted,
phase 2 transport HTTP 200 with an OCS meta body carrying status failure
and statuscode 102 — change_password reports success and refreshes the
cache with the new password, although the repository's own interpretation
of such a response (change_api_200_success, from test_nextcloud_passwd.py)
classifies it as a failed change. -/
theorem change_password_trusts_transport_200 :
    (change_password (fun _ _ _ => [0]) ⟨some "https://c.example", true, 7⟩
      (fun _ => none) 3 [1] [2] "alice" "oldpw" "newpw" .ok200
      (.http 200 (OcsBody.withMeta (some "failure") (some "102")
        (some "Password validation failed")))).success = true ∧
    CacheOp.write "alice" "newpw" ∈
      (change_password (fun _ _ _ => [0]) ⟨some "https://c.example", true, 7⟩
        (fun _ => none) 3 [1] [2] "alice" "oldpw" "newpw" .ok200
        (.http 200 (OcsBody.withMeta (some "failure") (some "102")
          (some "Password validation failed")))).ops ∧
    change_api_200_success (OcsBody.withMeta (some "failure") (some "102")
      (some "Password validation failed")) = false := by
  decide

theorem authenticate_ops_write
    (H : String → List Nat → Nat → List Nat) (cfg : AuthConfig)
    (store : CacheStore) (now : Nat) (salt : List Nat)
    (username password : String) (resp : AuthResponse) (u2 p2 : String)
    (h : CacheOp.write u2 p2 ∈
      (authenticate H cfg store now salt username password resp).ops) :
    resp = AuthResponse.ok200 ∧ cfg.enable_cache = true ∧
      u2 = username ∧ p2 = password := by
  unfold authenticate at h
  by_cases h1 : urlFalsy cfg.nextcloud_url = true
  · rw [if_pos h1] at h; simp at h
  · rw [if_neg h1] at h
    by_cases h2 : (username.isEmpty || password.isEmpty) = true
    · rw [if_pos h2] at h; simp at h
    · rw [if_neg h2] at h
      cases resp with
      | ok200 =>
        dsimp only at h
        by_cases hc : cfg.enable_cache = true
        · rw [if_pos hc] at h
          simp only [cache_password, hc, if_true, List.mem_singleton] at h
          simp only [CacheOp.write.injEq] at h
          exact ⟨rfl, hc, h.1, h.2⟩
        · rw [if_neg hc] at h; simp at h
      | unauthorized401 => dsimp only at h; simp at h
      | otherCode n =>
        dsimp only at h
        by_cases hc : cfg.enable_cache = true
        · rw [if_pos hc] at h
          exact absurd h (validate_no_write H cfg store now username password u2 p2)
        · rw [if_neg hc] at h; simp at h
      | timeoutExc =>
        dsimp only at h
        by_cases hc : cfg.enable_cache = true
        · rw [if_pos hc] at h
          exact absurd h (validate_no_write H cfg store now username password u2 p2)
        · rw [if_neg hc] at h; simp at h
      | sslExc =>
        dsimp only at h
        by_cases hc : cfg.enable_cache = true
        · rw [if_pos hc] at h
          exact absurd h (validate_no_write H cfg store now username password u2 p2)
        · rw [if_neg hc] at h; simp at h
      | connExc =>
        dsimp only at h
        by_cases hc : cfg.enable_cache = true
        · rw [if_pos hc] at h
          exact absurd h (validate_no_write H cfg store now username password u2 p2)
        · rw [if_neg hc] at h; simp at h
      | otherExc =>
        dsimp only at h
        by_cases hc : cfg.enable_cache = true
        · rw [if_pos hc] at h
          exact absurd h (validate_no_write H cfg store now username password u2 p2)
        · rw [if_neg hc] at h; simp at h

theorem change_password_ops_write
    (H : String → List Nat → Nat → List Nat) (cfg : AuthConfig)
    (store : CacheStore) (now : Nat) (saltOld saltNew : List Nat)
    (username old_password new_password : String)
    (authResp : AuthResponse) (chgResp : ChangeHttp) (u2 p2 : String)
    (h : CacheOp.write u2 p2 ∈
      (change_password H cfg store now saltOld saltNew username old_password
        new_password authResp chgResp).ops) :
    (authResp = AuthResponse.ok200 ∧ u2 = username ∧ p2 = old_password) ∨
    ((∃ body, chgResp = ChangeHttp.http 200 body) ∧
      (authenticate H cfg store now saltOld username old_password
        authResp).granted = true ∧
      u2 = username ∧ p2 = new_password) := by
  have fromAuth : CacheOp.write u2 p2 ∈
      (authenticate H cfg store now saltOld username old_password
        authResp).ops →
      (authResp = AuthResponse.ok200 ∧ u2 = username ∧ p2 = old_password) := by
    intro hh
    have := authenticate_ops_write H cfg store now saltOld username
      old_password authResp u2 p2 hh
    exact ⟨this.1, this.2.2.1, this.2.2.2⟩
  unfold change_password at h
  by_cases h1 : urlFalsy cfg.nextcloud_url = true
  · rw [if_pos h1] at h; simp at h
  · rw [if_neg h1] at h
    by_cases h2 : (username.isEmpty || old_password.isEmpty ||
        new_password.isEmpty) = true
    · rw [if_pos h2] at h; simp at h
    · rw [if_neg h2] at h
      dsimp only at h
      by_cases hg : (authenticate H cfg store now saltOld username
          old_password authResp).granted = true
      · rw [if_neg (by simp [hg])] at h
        cases chgResp with
        | http code body =>
          dsimp only at h
          by_cases hc : code = 200
          · rw [if_pos hc] at h
            by_cases hcache : cfg.enable_cache = true
            · rw [if_pos hcache] at h
              dsimp only at h
              rw [List.mem_append] at h
              rcases h with h | h
              · exact Or.inl (fromAuth h)
              · simp only [cache_password, hcache, if_true,
                  List.mem_singleton, CacheOp.write.injEq] at h
                exact Or.inr ⟨⟨body, by rw [hc]⟩, hg, h.1, h.2⟩
            · rw [if_neg hcache] at h
              exact Or.inl (fromAuth h)
          · rw [if_neg hc] at h
            exact Or.inl (fromAuth h)
        | timeoutExc => exact Or.inl (fromAuth h)
        | sslExc => exact Or.inl (fromAuth h)
        | connExc => exact Or.inl (fromAuth h)
        | otherExc => exact Or.inl (fromAuth h)
      · rw [if_pos hg] at h
        exact Or.inl (fromAuth h)

/-- C6 counterexample: a concrete run in which a cache entry is refreshed
with the new password immediately after a password-change response that
the repository's own OCS interpretation classifies as a failed change
(HTTP 200 with meta statuscode 102) — so a write occurs that does not
follow a successful remote password change. -/
theorem cache_write_after_failed_change :
    CacheOp.write "carol" "newpw" ∈
      (change_password (fun _ _ _ => [0]) ⟨some "https://c.example", true, 7⟩
        (fun _ => none) 5 [1] [2] "carol" "oldpw" "newpw" .ok200
        (.http 200 (OcsBody.withMeta (some "failure") (some "102") none))).ops ∧
    change_api_200_success
      (OcsBody.withMeta (some "failure") (some "102") none) = false := by
  decide

/-- C6 amended: a cache entry is written only immediately after a remote
authentication accepted with HTTP 200 (writing the submitted password for
the submitted user), or immediately after a password-change commit whose
transport status is HTTP 200 following a granted phase 1 (writing the new
password) — even when the OCS body of that 200 reports an
application-level failure. No write ever occurs from a cache-fallback
read, from a remote reject, or before the remote outcome is known. -/
theorem cache_write_only_on_accept_branches
    (H : String → List Nat → Nat → List Nat) (cfg : AuthConfig)
    (store : CacheStore) (now : Nat) (salt saltOld saltNew : List Nat)
    (username password old_password new_password : String)
    (resp authResp : AuthResponse) (chgResp : ChangeHttp) :
    (∀ u2 p2 : String, CacheOp.write u2 p2 ∈
        (authenticate H cfg store now salt username password resp).ops →
      resp = AuthResponse.ok200 ∧ cfg.enable_cache = true ∧
        u2 = username ∧ p2 = password) ∧
    (∀ u2 p2 : String, CacheOp.write u2 p2 ∈
        (change_password H cfg store now saltOld saltNew username old_password
          new_password authResp chgResp).ops →
      (authResp = AuthResponse.ok200 ∧ u2 = username ∧ p2 = old_password) ∨
      ((∃ body, chgResp = ChangeHttp.http 200 body) ∧
        (authenticate H cfg store now saltOld username old_password
          authResp).granted = true ∧
        u2 = username ∧ p2 = new_password)) :=
  ⟨fun u2 p2 h => authenticate_ops_write H cfg store now salt username
      password resp u2 p2 h,
   fun u2 p2 h => change_password_ops_write H cfg store now saltOld saltNew
      username old_password new_password authResp chgResp u2 p2 h⟩

/-- Witness for the amended C6 at a concrete input: the write of the new
password observed in a concrete change run is classified by the theorem
into the commit branch (transport 200 after granted phase 1). -/
theorem cache_write_only_on_accept_branches_witness :
    (AuthResponse.ok200 = AuthResponse.ok200 ∧ "eve" = "eve" ∧
      "newpw" = "oldpw") ∨
    ((∃ body, ChangeHttp.http 200 OcsBody.noMeta = ChangeHttp.http 200 body) ∧
      (authenticate (fun _ _ _ => [0]) ⟨some "https://c.example", true, 7⟩
        (fun _ => none) 4 [1] "eve" "oldpw" .ok200).granted = true ∧
      "eve" = "eve" ∧ "newpw" = "newpw") :=
  (cache_write_only_on_accept_branches (fun _ _ _ => [0])
    ⟨some "https://c.example", true, 7⟩ (fun _ => none) 4 [1] [1] [2]
    "eve" "pw" "oldpw" "newpw" .ok200 .ok200
    (.http 200 OcsBody.noMeta)).2 "eve" "newpw" (by decide)

/-- C7: group-mapping resolution is total (and, being a pure function of
the configuration and the local-group predicate, deterministic): whenever
every configured mapping entry is non-empty — which load_config guarantees,
since str.split always yields at least one element — every remote group
name resolves to at least one candidate local group name; and the remote
group Admins, not explicitly mapped, with enable_sudo_mapping on and a
locally existing sudo group, resolves to exactly the sudo group. -/
theorem get_mapped_groups_total
    (cfg : GroupSyncConfig) (groupExists : String → Bool)
    (hmap : ∀ g l, cfg.group_mapping g = some l → l ≠ []) :
    (∀ nc_group, get_mapped_groups cfg groupExists nc_group ≠ []) ∧
    (cfg.group_mapping "Admins" = none → cfg.enable_sudo_mapping = true →
      groupExists "sudo" = true →
      get_mapped_groups cfg groupExists "Admins" = ["sudo"]) := by
  constructor
  · intro nc_group
    unfold get_mapped_groups
    cases hm : cfg.group_mapping nc_group with
    | some gs => exact hmap nc_group gs hm
    | none => dsimp only; split_ifs <;> simp
  · intro hm hsudo hex
    unfold get_mapped_groups
    rw [hm]
    dsimp only
    rw [if_pos hsudo,
      if_pos (show pyLower "Admins" ∈ (["admin", "admins", "administrators"] : List String) by decide),
      if_pos hex]

/-- Witness for C7 at a concrete configuration (empty mapping table, sudo
heuristic enabled, only the sudo group existing locally): Admins resolves
to exactly the sudo group, and an arbitrary other group name resolves to a
non-empty candidate list. -/
theorem get_mapped_groups_total_witness :
    get_mapped_groups ⟨fun _ => none, "", true, true⟩
      (fun g => g == "sudo") "Admins" = ["sudo"] ∧
    get_mapped_groups ⟨fun _ => none, "", true, true⟩
      (fun g => g == "sudo") "Devs" ≠ [] := by
  have h := get_mapped_groups_total ⟨fun _ => none, "", true, true⟩
    (fun g => g == "sudo") (fun g l hl => Option.noConfusion hl)
  exact ⟨h.2 rfl rfl rfl, h.1 "Devs"⟩

theorem syncOne_already_member (cfg : GroupSyncConfig) (env : SyncEnv)
    (username : String) (st : SyncState) (g : String)
    (h : username ∈ st.members g) :
    syncOneLinuxGroup cfg env username st g =
      { st with synced := st.synced ++ [g] } := by
  unfold syncOneLinuxGroup
  rw [if_pos h]

theorem syncFold_already_member (cfg : GroupSyncConfig) (env : SyncEnv)
    (username : String) :
    ∀ (gs : List String) (st : SyncState),
    (∀ g ∈ gs, username ∈ st.members g) →
    gs.foldl (syncOneLinuxGroup cfg env username) st =
      { st with synced := st.synced ++ gs } := by
  intro gs
  induction gs with
  | nil => intro st h; simp
  | cons g gs ih =>
    intro st h
    rw [List.foldl_cons,
      syncOne_already_member cfg env username st g (h g (List.mem_cons_self g gs)),
      ih { st with synced := st.synced ++ [g] }
        (fun x hx => h x (List.mem_cons_of_mem _ hx))]
    simp

theorem syncGroups_already_member (cfg : GroupSyncConfig) (env : SyncEnv)
    (username : String) :
    ∀ (ncs : List String) (st : SyncState),
    (∀ nc ∈ ncs, ∀ g ∈ get_mapped_groups cfg st.existing nc,
      username ∈ st.members g) →
    ncs.foldl
      (fun st2 nc_group =>
        (get_mapped_groups cfg st2.existing nc_group).foldl
          (syncOneLinuxGroup cfg env username) st2) st =
      { st with synced := st.synced ++
          ncs.flatMap (fun nc => get_mapped_groups cfg st.existing nc) } := by
  intro ncs
  induction ncs with
  | nil => intro st h; simp
  | cons nc ncs ih =>
    intro st h
    rw [List.foldl_cons,
      syncFold_already_member cfg env username _ st
        (h nc (List.mem_cons_self nc ncs)),
      ih { st with synced := st.synced ++ get_mapped_groups cfg st.existing nc }
        (fun x hx g hg => h x (List.mem_cons_of_mem _ hx) g hg)]
    simp

/-- C8: reconciliation is idempotent. In the bulk engine, if one pass over
a group applies all its additions and removals (every involved user exists
locally, every command succeeds), the resulting local member set equals
the remote one, so a second pass computes an empty delta and emits no
operations for any enumeration order. In GroupSync.sync_groups, when the
user is already a member of every mapped group, the run emits no
operations, reports success, and records every mapped group as
already-synced. -/
theorem reconciliation_idempotent
    (e : Finset String → List String) (userExists : String → Bool)
    (nc loc : Finset String) (g : String)
    (cfg : GroupSyncConfig) (env : SyncEnv) (username : String)
    (ncGroups : List String) (members : String → Finset String)
    (existing : String → Bool)
    (he : ValidEnum e)
    (hnc : ∀ u ∈ nc, userExists u = true)
    (hloc : ∀ u ∈ loc, userExists u = true)
    (hmem : ∀ nc2 ∈ ncGroups, ∀ g2 ∈ get_mapped_groups cfg existing nc2,
      username ∈ members g2) :
    (users_to_add nc (apply_membership_sync userExists nc loc) = ∅ ∧
     users_to_remove nc (apply_membership_sync userExists nc loc) = ∅ ∧
     sync_membership_ops e userExists g nc
       (apply_membership_sync userExists nc loc) = []) ∧
    ((sync_groups cfg env username ncGroups members existing).ops = [] ∧
     (sync_groups cfg env username ncGroups members existing).success = true ∧
     (sync_groups cfg env username ncGroups members existing).synced =
       ncGroups.flatMap (fun nc2 => get_mapped_groups cfg existing nc2)) := by
  have happly : apply_membership_sync userExists nc loc = nc := by
    unfold apply_membership_sync users_to_add users_to_remove
    rw [Finset.filter_true_of_mem
        (fun x hx => hloc x (Finset.mem_sdiff.mp hx).1),
      Finset.filter_true_of_mem
        (fun x hx => hnc x (Finset.mem_sdiff.mp hx).1),
      Finset.sdiff_sdiff_self_left, Finset.inter_comm, Finset.union_comm]
    exact Finset.sdiff_union_inter nc loc
  constructor
  · rw [happly]
    refine ⟨Finset.sdiff_self nc, Finset.sdiff_self nc, ?_⟩
    unfold sync_membership_ops users_to_add users_to_remove
    rw [Finset.sdiff_self, validEnum_empty he]
    rfl
  · unfold sync_groups
    rw [syncGroups_already_member cfg env username ncGroups
      ⟨members, existing, true, [], []⟩ hmem]
    exact ⟨rfl, rfl, by simp⟩

/-- Witness for C8 at a concrete state already in sync: the second-pass
operation list for the bulk engine is empty, and sync_groups with the user
already in the mapped group emits no operations and records it as synced. -/
theorem reconciliation_idempotent_witness :
    sync_membership_ops sortEnum (fun _ => true) "grp" {"a"}
      (apply_membership_sync (fun _ => true) {"a"} ∅) = [] ∧
    (sync_groups ⟨fun _ => none, "", false, true⟩
      ⟨fun _ => true, fun _ _ => true⟩ "a" ["Team"]
      (fun _ => {"a"}) (fun _ => true)).ops = [] ∧
    (sync_groups ⟨fun _ => none, "", false, true⟩
      ⟨fun _ => true, fun _ _ => true⟩ "a" ["Team"]
      (fun _ => {"a"}) (fun _ => true)).synced = ["team"] := by
  have h := reconciliation_idempotent sortEnum (fun _ => true) {"a"} ∅ "grp"
    ⟨fun _ => none, "", false, true⟩ ⟨fun _ => true, fun _ _ => true⟩
    "a" ["Team"] (fun _ => {"a"}) (fun _ => true)
    sortEnum_valid (fun u _ => rfl) (fun u hu => rfl)
    (fun nc2 _ g2 _ => Finset.mem_singleton_self "a")
  refine ⟨h.1.2.2, h.2.1, ?_⟩
  rw [h.2.2.2]
  decide

theorem sync_membership_ops_perm {e1 e2 : Finset String → List String}
    (h1 : ValidEnum e1) (h2 : ValidEnum e2) (userExists : String → Bool)
    (g : String) (nc loc : Finset String) :
    (sync_membership_ops e1 userExists g nc loc).Perm
      (sync_membership_ops e2 userExists g nc loc) := by
  unfold sync_membership_ops
  exact (((validEnum_perm h1 h2 _).filter _).map _).append
    (((validEnum_perm h1 h2 _).filter _).map _)

theorem sync_group_membership_ops_perm {e1 e2 : Finset String → List String}
    (h1 : ValidEnum e1) (h2 : ValidEnum e2) (cfg : GroupSyncConfig)
    (groupExists userExists : String → Bool)
    (localMembers : String → Finset String) (nc_group : String)
    (m : Finset String) :
    (sync_group_membership_ops e1 cfg groupExists userExists localMembers
      nc_group m).Perm
    (sync_group_membership_ops e2 cfg groupExists userExists localMembers
      nc_group m) := by
  unfold sync_group_membership_ops
  dsimp only
  apply flatten_map_perm
  intro g hg
  split_ifs with hx
  · exact sync_membership_ops_perm h1 h2 userExists g m (localMembers g)
  · exact List.Perm.refl []

/-- C9 counterexample: with the same remote group list, local group list
and mapping table, two runs whose interpreter set-iteration orders differ
(ascending versus descending enumeration of the same sets — both are
valid enumerations, see the validity lemmas for sortEnum and revSortEnum)
produce different add/remove operation sequences: the code sorts the
group pairs but iterates the per-group user sets unsorted. -/
theorem bulk_sync_ops_order_not_deterministic :
    bulk_sync_ops sortEnum ⟨fun _ => none, "", false, true⟩
      (fun x => x == "g") (fun _ => true) (fun _ => ∅)
      (fun _ => {"a", "b"}) [("g", "g")] ≠
    bulk_sync_ops revSortEnum ⟨fun _ => none, "", false, true⟩
      (fun x => x == "g") (fun _ => true) (fun _ => ∅)
      (fun _ => {"a", "b"}) [("g", "g")] := by
  decide

/-- C9 amended: the group pairs are iterated in sorted order, and given
the same remote group list, local group list and mapping table, two runs
produce the same multiset of add/remove operations — the sequences are
permutations of one another — but the relative order of the users within
one group's add phase and remove phase follows the interpreter's
unspecified set-iteration order, so the operation sequences need not be
identical. -/
theorem bulk_sync_ops_perm {e1 e2 : Finset String → List String}
    (cfg : GroupSyncConfig) (groupExists userExists : String → Bool)
    (localMembers ncMembersOf : String → Finset String)
    (common_groups : List (String × String))
    (h1 : ValidEnum e1) (h2 : ValidEnum e2) :
    (bulk_sync_ops e1 cfg groupExists userExists localMembers ncMembersOf
      common_groups).Perm
    (bulk_sync_ops e2 cfg groupExists userExists localMembers ncMembersOf
      common_groups) := by
  unfold bulk_sync_ops
  exact flatten_map_perm _ _ _
    (fun p _ => sync_group_membership_ops_perm h1 h2 cfg groupExists
      userExists localMembers p.1 (ncMembersOf p.1))

/-- Witness for the amended C9 at the concrete input of the
counterexample: the two differently-ordered operation sequences are
permutations of one another. -/
theorem bulk_sync_ops_perm_witness :
    (bulk_sync_ops sortEnum ⟨fun _ => none, "", false, true⟩
      (fun x => x == "g") (fun _ => true) (fun _ => ∅)
      (fun _ => {"a", "b"}) [("g", "g")]).Perm
    (bulk_sync_ops revSortEnum ⟨fun _ => none, "", false, true⟩
      (fun x => x == "g") (fun _ => true) (fun _ => ∅)
      (fun _ => {"a", "b"}) [("g", "g")]) :=
  bulk_sync_ops_perm ⟨fun _ => none, "", false, true⟩
    (fun x => x == "g") (fun _ => true) (fun _ => ∅)
    (fun _ => {"a", "b"}) [("g", "g")] sortEnum_valid revSortEnum_valid

end PamNextcloud
